import Mathlib

/-!
Shallow embedding of the SpeakSmart-AI front-end pipeline.

The repository has two browser scripts, `static/script.js` and
`static/app.js`, each installing a speech-recognition result handler and
start/stop button handlers.  This file embeds both, faithfully to the
JavaScript source:

* `script.js`: splits the result entries of one recognition event into a
  final and an interim segment, displays `final || interim`, sends every
  display text to `/process_text`, and applies each response by assigning
  the `corrected` and `confidence` fields; the fetch chain has no catch
  handler.  Start and stop clicks are guarded by a `recognizing` flag.

* `app.js`: concatenates all result entries regardless of finality,
  displays the concatenation, sends it to `/correct` only when its
  JavaScript `trim()` is non-empty, and writes responses (and a fixed
  error marker on failure) into `correctedText`.  A media recorder
  collects audio chunks into a shared `audioChunks` buffer; on stop, one
  blob holding the buffered chunks is submitted to `/emotion` and the
  response text is appended to `correctedText`.

Strings are Lean strings (lists of characters); chunks are opaque tokens.
Asynchronous completions are modelled by explicit application functions,
and the media-recorder lifecycle by a state machine whose stop transition
includes the synchronously queued onstop work.
-/

namespace SpeakSmart

/-! ## Recognition events -/

/-- One entry of `event.results`: `isFinal` together with the best
candidate transcript `results[i][0].transcript`. -/
structure SpeechResult where
  isFinal : Bool
  transcript : String
  deriving DecidableEq

/-- A recognition event: `resultIndex` and the ordered result list. -/
structure RecognitionEvent where
  resultIndex : Nat
  results : List SpeechResult
  deriving DecidableEq

/-- In-order concatenation of the transcripts of a list of entries. -/
def joinTranscripts : List SpeechResult → String
  | [] => ""
  | r :: rs => r.transcript ++ joinTranscripts rs

/-! ## The reconciler of script.js -/

/-- JavaScript `a || b` on strings: the empty string is falsy. -/
def jsOr (a b : String) : String := if a = "" then b else a

/-- One iteration of the result loop in script.js: a final entry extends
the final segment, any other entry extends the interim segment. -/
def scriptAccum (acc : String × String) (r : SpeechResult) : String × String :=
  if r.isFinal then (acc.1 ++ r.transcript, acc.2) else (acc.1, acc.2 ++ r.transcript)

/-- The pair (final_transcript, interim_transcript) computed by the loop
over entries resultIndex .. results.length - 1 in script.js. -/
def scriptSegments (e : RecognitionEvent) : String × String :=
  (e.results.drop e.resultIndex).foldl scriptAccum ("", "")

/-- display_text in script.js: final_transcript || interim_transcript. -/
def script_displayText (e : RecognitionEvent) : String :=
  jsOr (scriptSegments e).1 (scriptSegments e).2

/-- Concatenation of the final entries in range, in order (spec side). -/
def finalConcat (e : RecognitionEvent) : String :=
  joinTranscripts ((e.results.drop e.resultIndex).filter (fun r => r.isFinal))

/-- Concatenation of the non-final entries in range, in order (spec side). -/
def interimConcat (e : RecognitionEvent) : String :=
  joinTranscripts ((e.results.drop e.resultIndex).filter (fun r => !r.isFinal))

/-- The display text the specification describes: the final concatenation
when non-empty, otherwise the interim concatenation. -/
def claimedDisplayText (e : RecognitionEvent) : String :=
  if finalConcat e = "" then interimConcat e else finalConcat e

/-! ## The reconciler of app.js -/

/-- One iteration of the result loop in app.js: every entry in range is
appended, whether final or not. -/
def appAccum (acc : String) (r : SpeechResult) : String := acc ++ r.transcript

/-- The transcript computed by app.js: the concatenation of all entries
from resultIndex to the end, ignoring isFinal. -/
def app_transcript (e : RecognitionEvent) : String :=
  (e.results.drop e.resultIndex).foldl appAccum ""

/-! ## JavaScript trim -/

/-- The JavaScript whitespace set used by String.prototype.trim: ASCII
whitespace, NBSP, BOM, the Zs category and the line separators. -/
def isJsWs (c : Char) : Bool :=
  c = ' ' || c = '\t' || c = '\n' || c = '\r' || c = '\u000B' || c = '\u000C' ||
  c = '\u00A0' || c = '\uFEFF' || c = '\u1680' ||
  (0x2000 ≤ c.toNat && c.toNat ≤ 0x200A) ||
  c = '\u2028' || c = '\u2029' || c = '\u202F' || c = '\u205F' || c = '\u3000'

/-- Remove leading and trailing JavaScript whitespace from a character list. -/
def jsTrimList (l : List Char) : List Char :=
  ((l.dropWhile isJsWs).reverse.dropWhile isJsWs).reverse

/-- JavaScript String.prototype.trim. -/
def jsTrim (s : String) : String := String.mk (jsTrimList s.data)

/-! ## UI state and response handling -/

/-- The UI fields script.js writes: the original, corrected and
confidence elements. -/
structure ScriptUI where
  original : String
  corrected : String
  confidence : String
  deriving DecidableEq

/-- The UI fields app.js writes: the speechText and correctedText
elements. -/
structure AppUI where
  speechText : String
  correctedText : String
  deriving DecidableEq

/-- The JSON body sent to the correction endpoint. -/
structure CorrectionRequest where
  text : String
  deriving DecidableEq

/-- A response of the /process_text endpoint as script.js reads it. -/
structure ProcessTextResponse where
  highlighted : String
  confidence : String
  deriving DecidableEq

/-- The synchronous part of the onresult handler in script.js: write the
display text into the original element and issue one /process_text
request carrying it — there is no condition on the fetch. -/
def script_onresult (e : RecognitionEvent) (ui : ScriptUI) :
    ScriptUI × Option CorrectionRequest :=
  let d := script_displayText e
  ({ ui with original := d }, some ⟨d⟩)

/-- Applying one /process_text response in script.js: assign the
corrected and confidence elements. -/
def script_applyResponse (ui : ScriptUI) (r : ProcessTextResponse) : ScriptUI :=
  { ui with corrected := r.highlighted, confidence := r.confidence }

/-- A failed /process_text call in script.js: the fetch chain has no
catch handler, so no UI write happens. -/
def script_applyCorrectionFailure (ui : ScriptUI) : ScriptUI := ui

/-- Responses applied in arrival order, as the code does (it stores no
sequence numbers). -/
def script_applyArrivals (ui : ScriptUI) (rs : List ProcessTextResponse) : ScriptUI :=
  rs.foldl script_applyResponse ui

/-- The synchronous part of the onresult handler in app.js: write the
concatenated transcript into speechText and issue one /correct request
carrying the untrimmed transcript exactly when its trim is non-empty. -/
def app_onresult (e : RecognitionEvent) (ui : AppUI) :
    AppUI × Option CorrectionRequest :=
  let t := app_transcript e
  ({ ui with speechText := t },
   if 0 < (jsTrim t).length then some ⟨t⟩ else none)

/-- Applying a successful /correct response in app.js. -/
def app_applyCorrectionSuccess (ui : AppUI) (corrected : String) : AppUI :=
  { ui with correctedText := "✅ " ++ corrected }

/-- Applying a failed /correct call in app.js: the catch block writes a
fixed error marker. -/
def app_applyCorrectionFailure (ui : AppUI) : AppUI :=
  { ui with correctedText := "⚠️ Grammar check error." }

/-- Applying a successful /emotion response in app.js: the label is
appended to correctedText. -/
def app_applyEmotionSuccess (ui : AppUI) (emotion : String) : AppUI :=
  { ui with correctedText := ui.correctedText ++ "\n🧠 Confidence Analysis: " ++ emotion }

/-- Applying a failed /emotion call in app.js: a marker is appended to
correctedText. -/
def app_applyEmotionFailure (ui : AppUI) : AppUI :=
  { ui with correctedText := ui.correctedText ++ "\n⚠️ Emotion detection failed." }

/-! ## The capture session of app.js -/

/-- An opaque audio chunk delivered by the media recorder. -/
abbrev Chunk := Nat

/-- A JavaScript runtime error surfaced by a handler. -/
inductive JsError
  | typeError
  deriving DecidableEq

/-- The mutable state app.js keeps around the media recorder: the shared
audioChunks buffer, the recorder (undefined before the first start,
recording, or inactive), the blobs submitted to /emotion so far in
order, and the UI. -/
structure AppCaptureState where
  audioChunks : List Chunk
  recorder : Option Bool
  emotionRequests : List (List Chunk)
  ui : AppUI
  deriving DecidableEq

/-- The start click in app.js: a fresh recorder is created, the chunk
buffer is reset and recording begins. -/
def app_startClick (st : AppCaptureState) : AppCaptureState :=
  { st with recorder := some true, audioChunks := [] }

/-- A dataavailable delivery: the chunk is pushed onto the shared buffer. -/
def app_dataAvailable (st : AppCaptureState) (c : Chunk) : AppCaptureState :=
  { st with audioChunks := st.audioChunks ++ [c] }

/-- The stop click in app.js, together with the onstop work it queues:
with no recorder yet, calling stop on undefined throws a TypeError and
nothing changes; with an inactive recorder the call is a no-op; with a
recording recorder the recorder becomes inactive, one blob holding the
buffered chunks is submitted to /emotion and the buffer is reset. -/
def app_stopClick (st : AppCaptureState) : Option JsError × AppCaptureState :=
  match st.recorder with
  | none => (some JsError.typeError, st)
  | some false => (none, st)
  | some true =>
      (none, { st with recorder := some false,
                       emotionRequests := st.emotionRequests ++ [st.audioChunks],
                       audioChunks := [] })

/-- One full recording session: start, the delivered chunks, stop. -/
def app_runSession (st : AppCaptureState) (s : List Chunk) : AppCaptureState :=
  (app_stopClick (s.foldl app_dataAvailable (app_startClick st))).2

/-! ## Start and stop handlers of script.js -/

/-- A command sent to the recognition engine. -/
inductive EngineCmd
  | start
  | stop
  deriving DecidableEq

/-- The state script.js keeps: the recognizing flag and the UI. -/
structure ScriptState where
  recognizing : Bool
  ui : ScriptUI
  deriving DecidableEq

/-- The start click in script.js: guarded by the recognizing flag.  When
the flag is clear the engine is started and the flag set; when the
recognition object is undefined (capability absent) the call throws
before the flag assignment, so nothing changes. -/
def script_startClick (recog : Option Unit) (s : ScriptState) :
    List EngineCmd × ScriptState :=
  if s.recognizing then ([], s)
  else
    match recog with
    | some _ => ([EngineCmd.start], { s with recognizing := true })
    | none => ([], s)

/-- The stop click in script.js: guarded by the recognizing flag. -/
def script_stopClick (s : ScriptState) : List EngineCmd × ScriptState :=
  if s.recognizing then ([EngineCmd.stop], { s with recognizing := false })
  else ([], s)

/-- A button click. -/
inductive Click
  | start
  | stop
  deriving DecidableEq

/-- One click processed over the state paired with the engine commands
emitted so far. -/
def script_stepOut (recog : Option Unit) (p : ScriptState × List EngineCmd)
    (c : Click) : ScriptState × List EngineCmd :=
  match c with
  | Click.start => ((script_startClick recog p.1).2, p.2 ++ (script_startClick recog p.1).1)
  | Click.stop => ((script_stopClick p.1).2, p.2 ++ (script_stopClick p.1).1)

/-- A sequence of clicks processed from a starting state, returning the
final state and all engine commands emitted. -/
def script_run (recog : Option Unit) (s0 : ScriptState) (cs : List Click) :
    ScriptState × List EngineCmd :=
  cs.foldl (script_stepOut recog) (s0, [])

/-- How many times a given engine command was emitted. -/
def countCmd (c : EngineCmd) : List EngineCmd → Nat
  | [] => 0
  | d :: l => (if d = c then 1 else 0) + countCmd c l

/-! ## Page-load capability checks -/

/-- Page load of script.js: with the capability absent an alert is
raised and the recognition object stays undefined. -/
def script_init (capabilityPresent : Bool) : Option String × Option Unit :=
  if capabilityPresent then (none, some ())
  else (some "Your browser does not support Speech Recognition.", none)

/-- Page load of app.js: with the capability absent an alert is raised
and no handler is attached to either button. -/
def app_init (capabilityPresent : Bool) : Option String × Bool :=
  if capabilityPresent then (none, true)
  else (some "❌ Speech Recognition not supported in this browser. Use Chrome.", false)

/-- A start click on the app.js page: it reaches the session logic only
when the handlers were attached at load. -/
def app_clickStart (handlersAttached : Bool) (st : AppCaptureState) : AppCaptureState :=
  if handlersAttached then app_startClick st else st

/-! ## Helper lemmas -/

/-- Folding the script.js loop body over a list splits it into the final
and interim concatenations. -/
theorem foldl_scriptAccum (l : List SpeechResult) (a b : String) :
    l.foldl scriptAccum (a, b) =
      (a ++ joinTranscripts (l.filter (fun r => r.isFinal)),
       b ++ joinTranscripts (l.filter (fun r => !r.isFinal))) := by
  induction l generalizing a b with
  | nil => simp [joinTranscripts, String.append_empty]
  | cons r rs ih =>
    cases hf : r.isFinal with
    | true =>
      simp [scriptAccum, hf, List.filter_cons, joinTranscripts, ih, String.append_assoc]
    | false =>
      simp [scriptAccum, hf, List.filter_cons, joinTranscripts, ih, String.append_assoc]

/-- The two segments script.js computes are the final and interim
concatenations. -/
theorem scriptSegments_eq (e : RecognitionEvent) :
    scriptSegments e = (finalConcat e, interimConcat e) := by
  simp [scriptSegments, finalConcat, interimConcat, foldl_scriptAccum, String.empty_append]

/-- Folding the app.js loop body over a list appends the concatenation of
all transcripts. -/
theorem foldl_appAccum (l : List SpeechResult) (a : String) :
    l.foldl appAccum a = a ++ joinTranscripts l := by
  induction l generalizing a with
  | nil => simp [joinTranscripts, String.append_empty]
  | cons r rs ih => simp [appAccum, joinTranscripts, ih, String.append_assoc]

/-- A character of a list that fails the predicate stays in the dropWhile. -/
theorem mem_dropWhile_of_not {p : Char → Bool} {l : List Char} {c : Char}
    (hc : c ∈ l) (hp : p c = false) : c ∈ l.dropWhile p := by
  induction l with
  | nil => simp at hc
  | cons a as ih =>
    rcases List.mem_cons.1 hc with rfl | h
    · simp [List.dropWhile_cons, hp]
    · cases ha : p a with
      | true => simpa [List.dropWhile_cons, ha] using ih h
      | false => simp [List.dropWhile_cons, ha, List.mem_cons, h]

/-- Membership in a dropWhile implies membership in the list. -/
theorem mem_of_mem_dropWhile {p : Char → Bool} {l : List Char} {c : Char}
    (h : c ∈ l.dropWhile p) : c ∈ l := by
  induction l with
  | nil => simp at h
  | cons a as ih =>
    cases ha : p a with
    | true =>
      rw [List.dropWhile_cons, if_pos ha] at h
      exact List.mem_cons_of_mem a (ih h)
    | false =>
      rw [List.dropWhile_cons, if_neg (by simp [ha])] at h
      exact h

/-- The JavaScript trim of a character list is empty exactly when every
character is whitespace. -/
theorem jsTrimList_eq_nil_iff (l : List Char) :
    jsTrimList l = [] ↔ ∀ c ∈ l, isJsWs c = true := by
  unfold jsTrimList
  rw [List.reverse_eq_nil_iff, List.dropWhile_eq_nil_iff]
  constructor
  · intro h c hc
    cases hp : isJsWs c with
    | true => rfl
    | false =>
      exact absurd (h c (List.mem_reverse.2 (mem_dropWhile_of_not hc hp)))
        (by simp [hp])
  · intro h c hc
    exact h c (mem_of_mem_dropWhile (List.mem_reverse.1 hc))

/-- The JavaScript trim of a string is non-empty exactly when the string
holds some non-whitespace character. -/
theorem jsTrim_length_pos_iff (s : String) :
    0 < (jsTrim s).length ↔ s.data.any (fun c => !isJsWs c) = true := by
  have hlen : (jsTrim s).length = (jsTrimList s.data).length := rfl
  rw [hlen, List.length_pos, Ne, jsTrimList_eq_nil_iff]
  simp [List.any_eq_true, Bool.not_eq_true]

/-- Running the recording session handlers with no dataavailable delivery
pending leaves the chunk buffer holding the appended chunks. -/
theorem foldl_dataAvailable (s : List Chunk) (st : AppCaptureState) :
    s.foldl app_dataAvailable st = { st with audioChunks := st.audioChunks ++ s } := by
  induction s generalizing st with
  | nil => simp
  | cons c cs ih => simp [app_dataAvailable, ih]

/-- One full session ends inactive with an empty buffer and exactly one
new emotion request holding that session's chunks. -/
theorem app_runSession_eq (st : AppCaptureState) (s : List Chunk) :
    app_runSession st s =
      { audioChunks := [], recorder := some false,
        emotionRequests := st.emotionRequests ++ [s], ui := st.ui } := by
  simp [app_runSession, app_startClick, foldl_dataAvailable, app_stopClick]

/-- With the capability absent both click handlers of script.js leave the
state and the emitted command list unchanged. -/
theorem script_run_no_capability (cs : List Click) (p : ScriptState × List EngineCmd)
    (h : p.1.recognizing = false) :
    cs.foldl (script_stepOut none) p = p := by
  induction cs generalizing p with
  | nil => rfl
  | cons c cs ih =>
    have hstep : script_stepOut none p c = p := by
      cases c with
      | start => simp [script_stepOut, script_startClick, h]
      | stop => simp [script_stepOut, script_stopClick, h]
    rw [List.foldl_cons, hstep]
    exact ih p h

/-! ## Claims -/

/-- C1, counterexample: on the event with one final entry and one interim
entry, app.js displays the concatenation of both entries, not the final
concatenation the claim requires. -/
theorem C1_reconciler_counterexample :
    app_transcript ⟨0, [⟨true, "hello "⟩, ⟨false, "wor"⟩]⟩ = "hello wor" ∧
    claimedDisplayText ⟨0, [⟨true, "hello "⟩, ⟨false, "wor"⟩]⟩ = "hello " ∧
    app_transcript ⟨0, [⟨true, "hello "⟩, ⟨false, "wor"⟩]⟩ ≠
      claimedDisplayText ⟨0, [⟨true, "hello "⟩, ⟨false, "wor"⟩]⟩ := by
  refine ⟨rfl, rfl, ?_⟩
  decide

/-- C1 (amended): script.js computes the claimed display text — the final
concatenation when non-empty, otherwise the interim concatenation — while
app.js displays the concatenation of all entries in range regardless of
finality. -/
theorem C1_reconciler_amended :
    (∀ e : RecognitionEvent, script_displayText e = claimedDisplayText e) ∧
    (∀ e : RecognitionEvent,
      app_transcript e = joinTranscripts (e.results.drop e.resultIndex)) := by
  constructor
  · intro e
    simp [script_displayText, scriptSegments_eq, jsOr, claimedDisplayText]
  · intro e
    simp [app_transcript, foldl_appAccum, String.empty_append]

/-- C2, counterexample: responses are applied in arrival order with no
sequence comparison; with responses to requests 1, 3, 2 arriving in that
order, the corrected field ends with response 2's content, not 3's. -/
theorem C2_ordering_counterexample :
    (script_applyArrivals ⟨"", "", ""⟩
        [⟨"resp one", "c1"⟩, ⟨"resp three", "c3"⟩, ⟨"resp two", "c2"⟩]).corrected
      = "resp two" ∧
    ("resp two" : String) ≠ "resp three" := by
  exact ⟨rfl, by decide⟩

/-- C2 (amended): the code assigns no sequence numbers; every arriving
correction response overwrites the corrected and confidence fields, so
the UI always shows the latest-arriving response, whatever its issue
order. -/
theorem C2_ordering_amended (ui : ScriptUI) (rs : List ProcessTextResponse)
    (r : ProcessTextResponse) :
    (script_applyArrivals ui (rs ++ [r])).corrected = r.highlighted ∧
    (script_applyArrivals ui (rs ++ [r])).confidence = r.confidence := by
  simp [script_applyArrivals, List.foldl_append, script_applyResponse]

/-- C3: over any sequence of complete recording sessions, each
Recording to Stopped transition submits exactly one emotion request, whose
blob holds exactly the chunks delivered during that session. -/
theorem C3_exactly_once_submission (st : AppCaptureState) (ss : List (List Chunk)) :
    (ss.foldl app_runSession st).emotionRequests = st.emotionRequests ++ ss := by
  induction ss generalizing st with
  | nil => simp
  | cons s ss ih => simp [List.foldl_cons, ih, app_runSession_eq]

/-- C4: a stop click in a non-Recording state changes nothing — in
script.js the recognizing guard skips the body, and in app.js a stop on
an undefined or inactive recorder leaves session state and UI unchanged. -/
theorem C4_stop_noop :
    (∀ s : ScriptState, s.recognizing = false → script_stopClick s = ([], s)) ∧
    (∀ st : AppCaptureState, st.recorder ≠ some true → (app_stopClick st).2 = st) := by
  constructor
  · intro s h
    simp [script_stopClick, h]
  · intro st h
    cases hr : st.recorder with
    | none => simp [app_stopClick, hr]
    | some b =>
      cases b with
      | false => simp [app_stopClick, hr]
      | true => exact absurd hr h

/-- C4 witness: the stop click at concrete non-Recording states. -/
theorem C4_stop_noop_witness :
    script_stopClick ⟨false, ⟨"", "", ""⟩⟩ = ([], ⟨false, ⟨"", "", ""⟩⟩) ∧
    (app_stopClick ⟨[], none, [], ⟨"", ""⟩⟩).2 = ⟨[], none, [], ⟨"", ""⟩⟩ :=
  ⟨C4_stop_noop.1 ⟨false, ⟨"", "", ""⟩⟩ rfl,
   C4_stop_noop.2 ⟨[], none, [], ⟨"", ""⟩⟩ (by decide)⟩

/-- C5, counterexample: script.js issues a request even for an event whose
display text is empty, and app.js issues none for a non-empty transcript
consisting of one space — both directions of the claimed equivalence
fail. -/
theorem C5_dispatch_counterexample :
    script_displayText ⟨0, []⟩ = "" ∧
    (script_onresult ⟨0, []⟩ ⟨"", "", ""⟩).2 = some ⟨""⟩ ∧
    app_transcript ⟨0, [⟨false, " "⟩]⟩ = " " ∧
    (" " : String) ≠ "" ∧
    (app_onresult ⟨0, [⟨false, " "⟩]⟩ ⟨"", ""⟩).2 = none := by
  refine ⟨rfl, rfl, rfl, by decide, by decide⟩

/-- C5 (amended): script.js issues exactly one request per recognition
event, unconditionally, carrying the display text; app.js issues a
request exactly when the transcript holds some non-whitespace
character. -/
theorem C5_dispatch_amended :
    (∀ (e : RecognitionEvent) (ui : ScriptUI),
      (script_onresult e ui).2 = some ⟨script_displayText e⟩) ∧
    (∀ (e : RecognitionEvent) (ui : AppUI),
      ((app_onresult e ui).2.isSome = true ↔
        (app_transcript e).data.any (fun c => !isJsWs c) = true)) := by
  constructor
  · intro e ui
    rfl
  · intro e ui
    rw [← jsTrim_length_pos_iff]
    by_cases h : 0 < (jsTrim (app_transcript e)).length
    · simp [app_onresult, h]
    · simp [app_onresult, h]

/-- C6, counterexample: app.js appends the analysis label into the very
correctedText element, and a later correction response replaces that
element wholesale, erasing the analysis label. -/
theorem C6_merger_counterexample :
    (app_applyEmotionSuccess ⟨"", "✅ hi"⟩ "calm").correctedText
      = "✅ hi\n🧠 Confidence Analysis: calm" ∧
    (app_applyCorrectionSuccess (app_applyEmotionSuccess ⟨"", "✅ hi"⟩ "calm") "yo").correctedText
      = "✅ yo" ∧
    ("✅ yo" : String) ≠ "✅ hi\n🧠 Confidence Analysis: calm" := by
  exact ⟨rfl, rfl, by decide⟩

/-- C6 (amended): app.js has no separate analysisLabel field — both
streams write the one correctedText element.  An analysis response
appends to it, preserving the prior content as a prefix and leaving the
original (speechText) field alone; a correction response also leaves
speechText alone but replaces the whole correctedText, erasing any
previously appended analysis label. -/
theorem C6_merger_amended :
    (∀ (ui : AppUI) (em : String),
      (app_applyEmotionSuccess ui em).speechText = ui.speechText ∧
      (app_applyEmotionSuccess ui em).correctedText
        = ui.correctedText ++ ("\n🧠 Confidence Analysis: " ++ em)) ∧
    (∀ (ui : AppUI) (c : String),
      (app_applyCorrectionSuccess ui c).speechText = ui.speechText ∧
      (app_applyCorrectionSuccess ui c).correctedText = "✅ " ++ c) ∧
    (∀ (ui : AppUI) (em c : String),
      app_applyCorrectionSuccess (app_applyEmotionSuccess ui em) c
        = app_applyCorrectionSuccess ui c) := by
  refine ⟨fun ui em => ⟨rfl, ?_⟩, fun ui c => ⟨rfl, rfl⟩, fun ui em c => rfl⟩
  simp [app_applyEmotionSuccess, String.append_assoc]

/-- C7, counterexample: in script.js a failed correction call is not
caught, so the corrected field keeps its old text and no error marker is
written. -/
theorem C7_failure_counterexample :
    script_applyCorrectionFailure ⟨"orig text", "old corrected", "0.9"⟩
      = ⟨"orig text", "old corrected", "0.9"⟩ ∧
    (script_applyCorrectionFailure ⟨"orig text", "old corrected", "0.9"⟩).corrected
      = "old corrected" := by
  exact ⟨rfl, rfl⟩

/-- C7 (amended): in app.js a correction failure is caught and replaces
correctedText with the fixed error marker, leaving speechText unchanged;
in script.js a correction failure is uncaught and leaves the UI entirely
unchanged.  In both models the dispatch decision of a later event depends
only on that event, so failures never block subsequent dispatches. -/
theorem C7_failure_amended :
    (∀ ui : AppUI,
      (app_applyCorrectionFailure ui).correctedText = "⚠️ Grammar check error." ∧
      (app_applyCorrectionFailure ui).speechText = ui.speechText) ∧
    (∀ ui : ScriptUI, script_applyCorrectionFailure ui = ui) ∧
    (∀ (e : RecognitionEvent) (ui1 ui2 : AppUI),
      (app_onresult e ui1).2 = (app_onresult e ui2).2) := by
  exact ⟨fun ui => ⟨rfl, rfl⟩, fun ui => rfl, fun e ui1 ui2 => rfl⟩

/-- C8: with the capability absent, both pages raise the alert at load,
script.js never sets the recognizing flag and never commands the engine
over any click sequence, and the app.js start click reaches no session
logic at all. -/
theorem C8_capability_guard :
    (script_init false).1 = some "Your browser does not support Speech Recognition." ∧
    (app_init false).1 = some "❌ Speech Recognition not supported in this browser. Use Chrome." ∧
    (∀ (cs : List Click) (ui : ScriptUI),
      (script_run none ⟨false, ui⟩ cs).1.recognizing = false ∧
      (script_run none ⟨false, ui⟩ cs).2 = []) ∧
    (∀ st : AppCaptureState, app_clickStart false st = st) := by
  refine ⟨rfl, rfl, fun cs ui => ?_, fun st => rfl⟩
  have h := script_run_no_capability cs (⟨false, ui⟩, []) rfl
  rw [script_run, h]
  exact ⟨rfl, rfl⟩

/-- Counting commands over an appended list. -/
theorem countCmd_append (c : EngineCmd) (l1 l2 : List EngineCmd) :
    countCmd c (l1 ++ l2) = countCmd c l1 + countCmd c l2 := by
  induction l1 with
  | nil => simp [countCmd]
  | cons d l ih => simp [countCmd, ih, Nat.add_assoc]

/-- Invariant of the script.js click loop: the number of start commands
emitted exceeds the number of stop commands by one exactly while the
recognizing flag is set. -/
theorem script_run_count_invariant (cs : List Click) (p : ScriptState × List EngineCmd)
    (h : countCmd EngineCmd.start p.2 =
          countCmd EngineCmd.stop p.2 + (if p.1.recognizing then 1 else 0)) :
    countCmd EngineCmd.start (cs.foldl (script_stepOut (some ())) p).2 =
      countCmd EngineCmd.stop (cs.foldl (script_stepOut (some ())) p).2 +
        (if (cs.foldl (script_stepOut (some ())) p).1.recognizing then 1 else 0) := by
  induction cs generalizing p with
  | nil => exact h
  | cons c cs ih =>
    rw [List.foldl_cons]
    apply ih
    cases c with
    | start =>
      by_cases hr : p.1.recognizing
      · simpa [script_stepOut, script_startClick, hr, countCmd_append, countCmd] using h
      · simp only [script_stepOut, script_startClick, hr, if_false, if_neg hr,
          countCmd_append, countCmd] at h ⊢
        simp [h, hr]
    | stop =>
      by_cases hr : p.1.recognizing
      · simp only [script_stepOut, script_stopClick, hr, if_pos hr,
          countCmd_append, countCmd] at h ⊢
        simp [h, hr]
      · simpa [script_stepOut, script_stopClick, hr, countCmd_append, countCmd] using h

/-- C9: with the recognizing flag already set, the start click of
script.js leaves the state unchanged and emits no engine command; over
any click sequence from the initial state the engine is started at most
once more than it is stopped. -/
theorem C9_start_idempotent :
    (∀ s : ScriptState, s.recognizing = true →
      script_startClick (some ()) s = ([], s)) ∧
    (∀ (cs : List Click) (ui : ScriptUI),
      countCmd EngineCmd.start (script_run (some ()) ⟨false, ui⟩ cs).2 ≤
        countCmd EngineCmd.stop (script_run (some ()) ⟨false, ui⟩ cs).2 + 1) := by
  constructor
  · intro s h
    simp [script_startClick, h]
  · intro cs ui
    have h := script_run_count_invariant cs (⟨false, ui⟩, []) (by simp [countCmd])
    rw [script_run] at *
    rw [h]
    by_cases hb : (cs.foldl (script_stepOut (some ())) (⟨false, ui⟩, [])).1.recognizing
      <;> simp [hb]

/-- C9 witness: a start click at a concrete state with the flag set. -/
theorem C9_start_idempotent_witness :
    script_startClick (some ()) ⟨true, ⟨"a", "b", "c"⟩⟩ = ([], ⟨true, ⟨"a", "b", "c"⟩⟩) :=
  C9_start_idempotent.1 ⟨true, ⟨"a", "b", "c"⟩⟩ rfl

/-- C10: the app.js handler always writes the untrimmed transcript into
speechText and never touches correctedText synchronously; when every
character of the transcript is JavaScript whitespace no request is
issued, and an issued request always carries the untrimmed transcript. -/
theorem C10_whitespace_guard (e : RecognitionEvent) (ui : AppUI) :
    (app_onresult e ui).1.speechText = app_transcript e ∧
    (app_onresult e ui).1.correctedText = ui.correctedText ∧
    ((∀ c ∈ (app_transcript e).data, isJsWs c = true) →
      (app_onresult e ui).2 = none) ∧
    (∀ req : CorrectionRequest, (app_onresult e ui).2 = some req →
      req.text = app_transcript e) := by
  refine ⟨rfl, rfl, ?_, ?_⟩
  · intro h
    have hnil : jsTrimList (app_transcript e).data = [] := (jsTrimList_eq_nil_iff _).2 h
    have hlen : (jsTrim (app_transcript e)).length = 0 := by
      simp [jsTrim, hnil, String.length]
    simp [app_onresult, hlen]
  · intro req h
    by_cases hp : 0 < (jsTrim (app_transcript e)).length
    · simp only [app_onresult, if_pos hp, Option.some.injEq] at h
      rw [← h]
    · simp [app_onresult, hp] at h

/-- C10 witness: the whitespace-only event issues no request. -/
theorem C10_whitespace_guard_witness :
    (app_onresult ⟨0, [⟨false, " "⟩]⟩ ⟨"x", "y"⟩).2 = none :=
  (C10_whitespace_guard ⟨0, [⟨false, " "⟩]⟩ ⟨"x", "y"⟩).2.2.1 (by decide)

end SpeakSmart
